import Mathlib

/-!
Verification of the GSSI DZT decoder in src/MAIN.py (function
read_gssi_dzt_final).  The file is modelled as a list of byte values
(natural numbers below 256); the decoder is embedded as a pure function
returning either a decoded (matrix, metadata) pair or an error labelling
the distinct failure exit of the source code that fired.
-/

set_option maxRecDepth 100000

/-- Byte of the file at index i (0 past the end, as a total default;
in-range accesses of the source are always within the list). -/
def byte (f : List Nat) (i : Nat) : Nat := f.getD i 0

/-- Two's-complement signed interpretation of a w-byte unsigned value,
as done by struct.unpack with a signed format code. -/
def toSignedW (w : Nat) (x : Nat) : Int :=
  if x < 2 ^ (8 * w - 1) then (x : Int) else (x : Int) - 2 ^ (8 * w)

/-- struct.unpack of a little-endian signed 16-bit value at header offset 4
(source line 25). -/
def samples_per_trace (f : List Nat) : Int :=
  toSignedW 2 (byte f 4 + 256 * byte f 5)

/-- struct.unpack of a little-endian signed 16-bit value at header offset 6
(source line 28). -/
def bits_per_sample (f : List Nat) : Int :=
  toSignedW 2 (byte f 6 + 256 * byte f 7)

/-- struct.unpack of a big-endian signed 16-bit value at header offset 51
(source line 21); printed only, not retained in the metadata. -/
def num_channels (f : List Nat) : Int :=
  toSignedW 2 (256 * byte f 51 + byte f 52)

/-- Value of an IEEE-754 binary32 number: finite (exact rational), an
infinity, or NaN. -/
inductive F32 where
  | finite (q : ℚ)
  | inf
  | neginf
  | nan
deriving DecidableEq

/-- Python comparison x <= 0 on a float (False for NaN and +inf). -/
def F32.le0 : F32 → Bool
  | .finite q => decide (q ≤ 0)
  | .inf => false
  | .neginf => true
  | .nan => false

/-- Python comparison x > 0 on a float (False for NaN and -inf). -/
def F32.gt0 : F32 → Bool
  | .finite q => decide (0 < q)
  | .inf => true
  | .neginf => false
  | .nan => false

/-- Sign factor of a 32-bit float word (bit 31). -/
def f32sign (w : Nat) : Int := if w / 2 ^ 31 = 1 then -1 else 1

/-- Interpretation of a 32-bit word as an IEEE-754 binary32 value
(sign bit 31, exponent bits 23-30, mantissa bits 0-22; subnormals,
infinities and NaN included).  The finite values are built with
Rat.divInt, which is exact rational division (see divInt_eq_ratCast_div
below). -/
def f32FromWord (w : Nat) : F32 :=
  if (w / 2 ^ 23) % 2 ^ 8 = 255 then
    if w % 2 ^ 23 = 0 then (if w / 2 ^ 31 = 1 then F32.neginf else F32.inf)
    else F32.nan
  else if (w / 2 ^ 23) % 2 ^ 8 = 0 then
    F32.finite (Rat.divInt (f32sign w * ((w % 2 ^ 23 : Nat) : Int)) ((2 ^ 149 : Nat) : Int))
  else
    F32.finite (Rat.divInt
      (f32sign w * (((2 ^ 23 + w % 2 ^ 23) * 2 ^ ((w / 2 ^ 23) % 2 ^ 8) : Nat) : Int))
      ((2 ^ 150 : Nat) : Int))

/-- The 32-bit little-endian word formed by header bytes 40..43. -/
def word40 (f : List Nat) : Nat :=
  byte f 40 + 2 ^ 8 * byte f 41 + 2 ^ 16 * byte f 42 + 2 ^ 24 * byte f 43

/-- struct.unpack of the little-endian IEEE-754 float at header offset 40
(source line 31), before any fallback substitution. -/
def scans_per_meter_raw (f : List Nat) : F32 :=
  f32FromWord (word40 f)

/-- Size in bytes of the data region following the 1024-byte header
(source line 45: file size minus 1024). -/
def data_size (f : List Nat) : Nat := f.length - 1024

/-- bytes_per_sample = bits_per_sample // 8 (source line 47). -/
def bytes_per_sample (f : List Nat) : Nat := ((bits_per_sample f) / 8).toNat

/-- denominator = samples_per_trace * bytes_per_sample (source line 48). -/
def bytes_per_trace (f : List Nat) : Nat :=
  (samples_per_trace f).toNat * bytes_per_sample f

/-- total_traces = data_size // denominator (source line 49). -/
def trace_count (f : List Nat) : Nat := data_size f / bytes_per_trace f

/-- Element width in bytes of the numpy dtype chosen at source line 63:
2 bytes when bits_per_sample is 16, otherwise 4 bytes. -/
def elem_width (f : List Nat) : Nat := if bits_per_sample f = 16 then 2 else 4

/-- The count argument passed to np.fromfile at source line 65. -/
def sample_count_wanted (f : List Nat) : Nat :=
  trace_count f * (samples_per_trace f).toNat

/-- Little-endian word of width w read from file bytes starting at index
base (least significant byte first). -/
def leWord (f : List Nat) (base : Nat) : Nat → Nat
  | 0 => 0
  | w + 1 => byte f base + 256 * leWord f (base + 1) w

/-- Sample number j of the data region, read as a w-byte little-endian
signed integer starting at file offset 1024 + j * w. -/
def sampleAt (f : List Nat) (w j : Nat) : Int :=
  toSignedW w (leWord f (1024 + j * w) w)

/-- The flat sample vector produced by np.fromfile at source line 65:
min(count, available complete elements) little-endian signed integers of
the chosen element width, read consecutively from file offset 1024. -/
def flat_samples (f : List Nat) : List Int :=
  (List.range (min (sample_count_wanted f) (data_size f / elem_width f))).map
    (fun j => sampleAt f (elem_width f) j)

/-- numpy reshape((S, T), order='F'): row s, column t holds flat element
t * S + s. -/
def reshapeF (flat : List Int) (S T : Nat) : List (List Int) :=
  (List.range S).map (fun s => (List.range T).map (fun t => flat.getD (t * S + s) 0))

/-- Python float division of a nonnegative integer by an F32 value:
division by finite zero raises (none, the ZeroDivisionError of source
line 75); division by an infinity gives (signed) zero; by NaN gives NaN.
The finite quotient t / q is computed as divInt (t * q.den) q.num, which
equals the rational division (t : Rat) / q (proved in fdivNat_finite
below). -/
def fdivNat (t : Nat) : F32 → Option F32
  | .finite q =>
      if q = 0 then none
      else some (.finite (Rat.divInt ((t : Int) * (q.den : Int)) q.num))
  | .inf => some (.finite 0)
  | .neginf => some (.finite 0)
  | .nan => some .nan

/-- The metadata dictionary built at source lines 70-76. -/
structure HeaderInfo where
  samples_per_trace : Int
  bits_per_sample : Int
  scans_per_meter : F32
  trace_count : Nat
  total_length_m : F32
deriving DecidableEq

/-- Labels for the distinct failure exits of read_gssi_dzt_final; every
one of them returns the same Python value (None, None), distinguished
only by the printed message. criticalError is the generic except-branch
of source lines 81-83. -/
inductive DecodeErr where
  | truncatedHeader
  | invalidHeaderParameters
  | emptyRecording
  | criticalError
deriving DecidableEq

/-- scans_per_meter after the fallback of source lines 55-58: the decoded
float when it is not <= 0, else the caller-supplied default. -/
def spm_final (f : List Nat) (d : ℚ) : F32 :=
  if (scans_per_meter_raw f).le0 then F32.finite d else scans_per_meter_raw f

/-- True exactly when the fallback warning of source line 56 is printed. -/
def fallback_flag (f : List Nat) : Bool := (scans_per_meter_raw f).le0

/-- Outcome of a decode: the (matrix, metadata) pair, or a failure exit
labelled by which return-None site (or except branch) fired. -/
inductive DecodeResult where
  | ok (m : List (List Int)) (md : HeaderInfo)
  | error (e : DecodeErr)
deriving DecidableEq

/-- Shallow embedding of read_gssi_dzt_final (source lines 7-83) on the
byte list of the whole file.  The branches are, in source order: the
truncated-header check (line 14), header validation (line 37), the
zero-trace-count check (line 51), the numpy reshape size check (line 66,
a ValueError lands in the except branch), and the total_length_m division
(line 75, a ZeroDivisionError lands in the except branch). -/
def read_gssi_dzt_final (f : List Nat) (d : ℚ) : DecodeResult :=
  if f.length < 1024 then .error .truncatedHeader
  else if samples_per_trace f ≤ 0 ∨ bits_per_sample f ∉ ([8, 16, 32] : List Int) then
    .error .invalidHeaderParameters
  else if trace_count f = 0 then .error .emptyRecording
  else if (flat_samples f).length = (samples_per_trace f).toNat * trace_count f then
    match fdivNat (trace_count f) (spm_final f d) with
    | some len => .ok (reshapeF (flat_samples f) (samples_per_trace f).toNat (trace_count f))
        ⟨samples_per_trace f, bits_per_sample f, spm_final f d, trace_count f, len⟩
    | none => .error .criticalError
  else .error .criticalError

/-- The value actually returned to the Python caller: the pair on
success, the single value None (here: none) on every failure path. -/
def read_gssi_dzt_final_ret (f : List Nat) (d : ℚ) :
    Option (List (List Int) × HeaderInfo) :=
  match read_gssi_dzt_final f d with
  | .ok m md => some (m, md)
  | .error _ => none

/-! Concrete test files, following the end-to-end scenario of the spec:
a 1024-byte header with samples_per_trace = 4, bits_per_sample = 16,
scans_per_meter = 100.0 (bytes 00 00 C8 42 at offset 40) and one channel
(bytes 00 01 at offset 51), followed by three traces of 16-bit samples
0..11 plus three trailing junk bytes. -/

def exHeader : List Nat :=
  [0, 0, 0, 0, 4, 0, 16, 0] ++ List.replicate 32 0 ++ [0, 0, 200, 66] ++
    List.replicate 7 0 ++ [0, 1] ++ List.replicate 971 0

def exData : List Nat :=
  [0, 0, 1, 0, 2, 0, 3, 0, 4, 0, 5, 0, 6, 0, 7, 0, 8, 0, 9, 0, 10, 0, 11, 0, 9, 9, 9]

def exFile : List Nat := exHeader ++ exData

def exMatrix : List (List Int) :=
  [[0, 4, 8], [1, 5, 9], [2, 6, 10], [3, 7, 11]]

def exMd : HeaderInfo :=
  ⟨4, 16, F32.finite 100, 3, F32.finite (mkRat 3 100)⟩

/-- Same as exHeader but with bits_per_sample = 8; data region of 5 bytes
(one complete 4-byte trace plus one junk byte at the 1-byte width the
header declares). -/
def exFile8 : List Nat :=
  [0, 0, 0, 0, 4, 0, 8, 0] ++ List.replicate 32 0 ++ [0, 0, 200, 66] ++
    List.replicate 7 0 ++ [0, 1] ++ List.replicate 971 0 ++ [1, 2, 3, 4, 5]

/-- Valid header with samples_per_trace = 1, bits_per_sample = 16 and a
zero scans_per_meter field, followed by one 16-bit sample. -/
def exFileZ : List Nat :=
  [0, 0, 0, 0, 1, 0, 16, 0] ++ List.replicate 1016 0 ++ [1, 0]

/-- Like exFileZ but with a NaN scans_per_meter field (word 7FC00000)
and sample value 5. -/
def exFileN : List Nat :=
  [0, 0, 0, 0, 1, 0, 16, 0] ++ List.replicate 32 0 ++ [0, 0, 192, 127] ++
    List.replicate 980 0 ++ [5, 0]

/-- Like exFileZ but with sample value 7 (used with a positive default to
exercise the fallback substitution). -/
def exFileF : List Nat :=
  [0, 0, 0, 0, 1, 0, 16, 0] ++ List.replicate 1016 0 ++ [7, 0]

/-- An all-zero header (samples_per_trace = 0, hence invalid) with a
nonempty data region. -/
def exFileB : List Nat := List.replicate 1024 0 ++ [1, 0]

/-- Valid header (samples_per_trace = 1, bits_per_sample = 16) with an
empty data region. -/
def exFileE : List Nat := [0, 0, 0, 0, 1, 0, 16, 0] ++ List.replicate 1016 0

/-- Same as exFile except in the three trailing junk bytes of the data
region (the partial-trace remainder), which hold 1 2 3 instead of
9 9 9. -/
def exFileJ : List Nat := exHeader ++
  [0, 0, 1, 0, 2, 0, 3, 0, 4, 0, 5, 0, 6, 0, 7, 0, 8, 0, 9, 0, 10, 0, 11, 0, 1, 2, 3]

/-! Supporting lemmas. -/

/-- The divInt expression used in fdivNat is the exact rational division
of the source expression total_traces / scans_per_meter. -/
theorem fdivNat_finite (t : Nat) (q : ℚ) (hq : q ≠ 0) :
    fdivNat t (F32.finite q) = some (F32.finite ((t : ℚ) / q)) := by
  have hnum : (q.num : ℚ) ≠ 0 := by
    exact_mod_cast Rat.num_ne_zero.mpr hq
  have hden : (q.den : ℚ) ≠ 0 := by
    exact_mod_cast q.den_nz
  have hkey : q * (q.den : ℚ) = (q.num : ℚ) := by
    calc q * (q.den : ℚ) = ((q.num : ℚ) / (q.den : ℚ)) * (q.den : ℚ) := by
          rw [Rat.num_div_den]
    _ = (q.num : ℚ) := div_mul_cancel₀ _ hden
  simp only [fdivNat]
  rw [if_neg hq, Rat.divInt_eq_div]
  congr 2
  push_cast
  rw [div_eq_div_iff hnum hq]
  calc (t : ℚ) * q.den * q = (t : ℚ) * (q * q.den) := by ring
  _ = (t : ℚ) * q.num := by rw [hkey]

/-- Characterisation of the 2-byte two's-complement decode: the result is
congruent to the unsigned value modulo 2^16 and lies in the signed
16-bit range. -/
theorem toSignedW_two (x : Nat) (hx : x < 65536) :
    Int.ModEq 65536 (toSignedW 2 x) (x : Int) ∧
      -32768 ≤ toSignedW 2 x ∧ toSignedW 2 x < 32768 := by
  have hdef : toSignedW 2 x = if x < 32768 then (x : Int) else (x : Int) - 65536 := by
    unfold toSignedW
    norm_num
  rw [hdef]
  unfold Int.ModEq
  split <;> omega

/-- The shape of a column-major reshape: S rows. -/
theorem reshapeF_length (flat : List Int) (S T : Nat) :
    (reshapeF flat S T).length = S := by
  unfold reshapeF
  simp

/-- The shape of a column-major reshape: every row has T entries. -/
theorem reshapeF_row_length (flat : List Int) (S T : Nat) (row : List Int)
    (hr : row ∈ reshapeF flat S T) : row.length = T := by
  unfold reshapeF at hr
  simp only [List.mem_map] at hr
  obtain ⟨s, _, hrow⟩ := hr
  rw [← hrow]
  simp

/-- Entry (s, t) of the column-major reshape is flat element t * S + s. -/
theorem reshapeF_entry (flat : List Int) (S T s t : Nat) (hs : s < S) (ht : t < T) :
    (((reshapeF flat S T).getD s []).getD t 0) = flat.getD (t * S + s) 0 := by
  unfold reshapeF
  simp only [List.getD_eq_getElem?_getD, List.getElem?_map, List.getElem?_range hs,
    List.getElem?_range ht, Option.map_some', Option.getD_some]

/-- Bytes below a common prefix length are equal when the prefixes are
equal. -/
theorem byte_eq_of_take_eq (f g : List Nat) (i n : Nat)
    (ht : f.take n = g.take n) (hi : i < n) : byte f i = byte g i := by
  unfold byte
  rw [List.getD_eq_getElem?_getD, List.getD_eq_getElem?_getD,
    ← List.getElem?_take_of_lt (l := f) hi, ← List.getElem?_take_of_lt (l := g) hi, ht]

/-- Inversion of a successful decode: the branch conditions that must
have held and the exact contents of the returned pair. -/
theorem decode_ok_inv (f : List Nat) (d : ℚ) (m : List (List Int)) (md : HeaderInfo)
    (h : read_gssi_dzt_final f d = .ok m md) :
    1024 ≤ f.length ∧ 0 < samples_per_trace f ∧
    (bits_per_sample f = 8 ∨ bits_per_sample f = 16 ∨ bits_per_sample f = 32) ∧
    trace_count f ≠ 0 ∧
    (flat_samples f).length = (samples_per_trace f).toNat * trace_count f ∧
    md.samples_per_trace = samples_per_trace f ∧
    md.bits_per_sample = bits_per_sample f ∧
    md.scans_per_meter = spm_final f d ∧
    md.trace_count = trace_count f ∧
    fdivNat (trace_count f) (spm_final f d) = some md.total_length_m ∧
    m = reshapeF (flat_samples f) (samples_per_trace f).toNat (trace_count f) := by
  unfold read_gssi_dzt_final at h
  split at h
  · exact absurd h (by simp)
  next hlen =>
  split at h
  · exact absurd h (by simp)
  next hvalid =>
  split at h
  · exact absurd h (by simp)
  next htc =>
  split at h
  case isTrue hflat =>
    split at h
    case h_1 len heq =>
      injection h with h1 h2
      subst h1
      subst h2
      push_neg at hvalid
      refine ⟨by omega, by omega, ?_, htc, hflat, rfl, rfl, rfl, rfl, ?_, rfl⟩
      · simpa using hvalid.2
      · simpa using heq
    case h_2 heq => exact absurd h (by simp)
  case isFalse hflat => exact absurd h (by simp)

/-- A little-endian word read depends only on the bytes it covers. -/
theorem leWord_congr (f g : List Nat) (base : Nat) (w : Nat)
    (hb : ∀ i, i < w → byte f (base + i) = byte g (base + i)) :
    leWord f base w = leWord g base w := by
  induction w generalizing base with
  | zero => rfl
  | succ w ih =>
      unfold leWord
      have h0 : byte f base = byte g base := by
        have := hb 0 (by omega)
        simpa using this
      rw [h0, ih (base + 1) (fun i hi => by
        have := hb (i + 1) (by omega)
        rw [show base + (i + 1) = base + 1 + i by omega] at this
        exact this)]

/-- The flat sample vector depends only on the file length, the decoded
header geometry and the data bytes the read actually covers. -/
theorem flat_samples_congr (f g : List Nat)
    (hlen : f.length = g.length)
    (hspt : samples_per_trace f = samples_per_trace g)
    (hbps : bits_per_sample f = bits_per_sample g)
    (hbytes : ∀ p, p < sample_count_wanted f * elem_width f →
      byte f (1024 + p) = byte g (1024 + p)) :
    flat_samples f = flat_samples g := by
  have hds : data_size f = data_size g := by
    unfold data_size
    rw [hlen]
  have hw : elem_width f = elem_width g := by
    unfold elem_width
    rw [hbps]
  have hcount : sample_count_wanted f = sample_count_wanted g := by
    unfold sample_count_wanted trace_count bytes_per_trace bytes_per_sample
    rw [hds, hspt, hbps]
  unfold flat_samples
  rw [← hds, ← hw, ← hcount]
  apply List.map_congr_left
  intro j hj
  rw [List.mem_range] at hj
  unfold sampleAt
  rw [hw] at hj ⊢
  congr 1
  apply leWord_congr
  intro i hi
  have hjc : j < sample_count_wanted f := lt_of_lt_of_le hj (min_le_left _ _)
  have hpos : j * elem_width g + i < sample_count_wanted f * elem_width g := by
    calc j * elem_width g + i < j * elem_width g + elem_width g := by omega
    _ = (j + 1) * elem_width g := by ring
    _ ≤ sample_count_wanted f * elem_width g := Nat.mul_le_mul_right _ (by omega)
  have := hbytes (j * elem_width g + i) (by rw [hw]; omega)
  rw [show 1024 + (j * elem_width g + i) = 1024 + j * elem_width g + i by omega] at this
  exact this

/-- The decode result depends only on the file length, the four decoded
header fields and the flat sample vector. -/
theorem decode_congr (f g : List Nat) (d : ℚ)
    (hlen : f.length = g.length)
    (hspt : samples_per_trace f = samples_per_trace g)
    (hbps : bits_per_sample f = bits_per_sample g)
    (hspm : scans_per_meter_raw f = scans_per_meter_raw g)
    (hflat : flat_samples f = flat_samples g) :
    read_gssi_dzt_final f d = read_gssi_dzt_final g d := by
  have htc : trace_count f = trace_count g := by
    unfold trace_count data_size bytes_per_trace bytes_per_sample
    rw [hlen, hspt, hbps]
  unfold read_gssi_dzt_final spm_final
  rw [hlen, hspt, hbps, hspm, hflat, htc]

/-- With an 8-bit header the numpy read at 4-byte width always comes up
short: fewer elements than the reshape needs are available, so the
decode falls into the generic exception branch. -/
theorem bits8_error (f : List Nat) (d : ℚ)
    (hlen : 1024 ≤ f.length) (hspt : 0 < samples_per_trace f)
    (h8 : bits_per_sample f = 8) (htc : trace_count f ≠ 0) :
    read_gssi_dzt_final f d = .error .criticalError := by
  have hbps1 : bytes_per_sample f = 1 := by
    unfold bytes_per_sample
    rw [h8]
    rfl
  have hw : elem_width f = 4 := by
    unfold elem_width
    rw [h8]
    norm_num
  have hs1 : 1 ≤ (samples_per_trace f).toNat := by omega
  have hB : bytes_per_trace f = (samples_per_trace f).toNat := by
    unfold bytes_per_trace
    rw [hbps1, Nat.mul_one]
  have hT : trace_count f = data_size f / (samples_per_trace f).toNat := by
    unfold trace_count
    rw [hB]
  rw [hT] at htc
  have hflatlen : (flat_samples f).length =
      min (sample_count_wanted f) (data_size f / 4) := by
    unfold flat_samples
    rw [List.length_map, List.length_range, hw]
  have hcount : sample_count_wanted f =
      data_size f / (samples_per_trace f).toNat * (samples_per_trace f).toNat := by
    unfold sample_count_wanted
    rw [hT]
  have hne2 : (flat_samples f).length ≠ (samples_per_trace f).toNat * trace_count f := by
    rw [hflatlen, hcount, hT]
    have hdm := Nat.div_add_mod (data_size f) (samples_per_trace f).toNat
    have hmodlt : data_size f % (samples_per_trace f).toNat < (samples_per_trace f).toNat :=
      Nat.mod_lt _ (by omega)
    have hsle : (samples_per_trace f).toNat ≤
        (samples_per_trace f).toNat * (data_size f / (samples_per_trace f).toNat) :=
      Nat.le_mul_of_pos_right _ (by omega)
    have hcomm : data_size f / (samples_per_trace f).toNat * (samples_per_trace f).toNat
        = (samples_per_trace f).toNat * (data_size f / (samples_per_trace f).toNat) :=
      Nat.mul_comm _ _
    omega
  unfold read_gssi_dzt_final
  rw [if_neg (by omega : ¬ f.length < 1024)]
  rw [if_neg (show ¬ (samples_per_trace f ≤ 0 ∨
      bits_per_sample f ∉ ([8, 16, 32] : List Int)) by
    push_neg
    exact ⟨by omega, by rw [h8]; simp⟩)]
  rw [if_neg (by rw [hT]; exact htc)]
  rw [if_neg hne2]

/-- Success implies the sample width read path was 16- or 32-bit: an
8-bit header can never produce a matrix. -/
theorem decode_ok_bits_ne8 (f : List Nat) (d : ℚ) (m : List (List Int)) (md : HeaderInfo)
    (h : read_gssi_dzt_final f d = .ok m md) :
    bits_per_sample f = 16 ∨ bits_per_sample f = 32 := by
  obtain ⟨hlen, hspt, hbits, htc, _⟩ := decode_ok_inv f d m md h
  rcases hbits with h8 | h16 | h32
  · have herr := bits8_error f d hlen hspt h8 htc
    rw [herr] at h
    exact absurd h (by simp)
  · exact Or.inl h16
  · exact Or.inr h32

/-- On success the numpy element width equals the header's
bytes-per-sample, so the bytes covered by the read are exactly the bytes
of the complete traces. -/
theorem decode_ok_width (f : List Nat) (d : ℚ) (m : List (List Int)) (md : HeaderInfo)
    (h : read_gssi_dzt_final f d = .ok m md) :
    sample_count_wanted f * elem_width f = trace_count f * bytes_per_trace f := by
  rcases decode_ok_bits_ne8 f d m md h with h16 | h32
  · unfold sample_count_wanted bytes_per_trace bytes_per_sample elem_width
    rw [h16]
    norm_num
    rw [show Int.toNat 2 = 2 from rfl]
    ring
  · unfold sample_count_wanted bytes_per_trace bytes_per_sample elem_width
    rw [h32]
    norm_num
    rw [show Int.toNat 4 = 4 from rfl]
    ring

/-- C1: header field decoding recovers exactly the bytes at the
documented fixed offsets with the documented endianness —
samples_per_trace is the 2-byte little-endian signed value at offset 4,
bits_per_sample the one at offset 6, scans_per_meter the 4-byte
little-endian IEEE-754 float at offset 40 (with the textbook normal-form
value), channel_count the 2-byte big-endian signed value at offset 51 —
and no other offsets are interpreted: two files agreeing on those header
offsets (and on the data region) decode identically. -/
theorem C1_header_field_decoding (f g : List Nat) (d : ℚ)
    (h4 : byte f 4 < 256) (h5 : byte f 5 < 256) (h6 : byte f 6 < 256)
    (h7 : byte f 7 < 256) (h51 : byte f 51 < 256) (h52 : byte f 52 < 256)
    (hlen : f.length = g.length)
    (e4 : byte f 4 = byte g 4) (e5 : byte f 5 = byte g 5)
    (e6 : byte f 6 = byte g 6) (e7 : byte f 7 = byte g 7)
    (e40 : byte f 40 = byte g 40) (e41 : byte f 41 = byte g 41)
    (e42 : byte f 42 = byte g 42) (e43 : byte f 43 = byte g 43)
    (e51 : byte f 51 = byte g 51) (e52 : byte f 52 = byte g 52)
    (edata : ∀ p, byte f (1024 + p) = byte g (1024 + p)) :
    (Int.ModEq 65536 (samples_per_trace f) ((byte f 4 + 256 * byte f 5 : Nat) : Int) ∧
      -32768 ≤ samples_per_trace f ∧ samples_per_trace f < 32768) ∧
    (Int.ModEq 65536 (bits_per_sample f) ((byte f 6 + 256 * byte f 7 : Nat) : Int) ∧
      -32768 ≤ bits_per_sample f ∧ bits_per_sample f < 32768) ∧
    (Int.ModEq 65536 (num_channels f) ((256 * byte f 51 + byte f 52 : Nat) : Int) ∧
      -32768 ≤ num_channels f ∧ num_channels f < 32768) ∧
    scans_per_meter_raw f = f32FromWord
      (byte f 40 + 2 ^ 8 * byte f 41 + 2 ^ 16 * byte f 42 + 2 ^ 24 * byte f 43) ∧
    (∀ w : Nat, w < 2 ^ 32 → (w / 2 ^ 23) % 2 ^ 8 ≠ 0 → (w / 2 ^ 23) % 2 ^ 8 ≠ 255 →
      f32FromWord w = F32.finite ((if 2 ^ 31 ≤ w then (-1 : ℚ) else 1) *
        (1 + ((w % 2 ^ 23 : Nat) : ℚ) / 2 ^ 23) * 2 ^ ((w / 2 ^ 23) % 2 ^ 8) / 2 ^ 127)) ∧
    read_gssi_dzt_final f d = read_gssi_dzt_final g d ∧
    num_channels f = num_channels g := by
  refine ⟨?_, ?_, ?_, rfl, ?_, ?_, ?_⟩
  · exact toSignedW_two (byte f 4 + 256 * byte f 5) (by omega)
  · exact toSignedW_two (byte f 6 + 256 * byte f 7) (by omega)
  · exact toSignedW_two (256 * byte f 51 + byte f 52) (by omega)
  · intro w hw he0 he255
    unfold f32FromWord f32sign
    rw [if_neg he255, if_neg he0]
    generalize w % 2 ^ 23 = mw
    generalize (w / 2 ^ 23) % 2 ^ 8 = ew
    by_cases hs : 2 ^ 31 ≤ w
    · rw [if_pos (show w / 2 ^ 31 = 1 by omega), if_pos hs, Rat.divInt_eq_div]
      push_cast
      field_simp
      ring
    · rw [if_neg (show ¬ w / 2 ^ 31 = 1 by omega), if_neg hs, Rat.divInt_eq_div]
      push_cast
      field_simp
      ring
  · apply decode_congr f g d hlen
    · unfold samples_per_trace
      rw [e4, e5]
    · unfold bits_per_sample
      rw [e6, e7]
    · unfold scans_per_meter_raw word40
      rw [e40, e41, e42, e43]
    · apply flat_samples_congr f g hlen
      · unfold samples_per_trace
        rw [e4, e5]
      · unfold bits_per_sample
        rw [e6, e7]
      · intro p _
        exact edata p
  · unfold num_channels
    rw [e51, e52]

/-- Witness for C1 at the concrete example file: the decoded fields have
the documented values, endianness included (byte pair 00 01 at offset 51
reads big-endian as 1; bytes 00 00 C8 42 at offset 40 read little-endian
as the float 100.0). -/
theorem C1_witness :
    (Int.ModEq 65536 (samples_per_trace exFile)
        ((byte exFile 4 + 256 * byte exFile 5 : Nat) : Int) ∧
      -32768 ≤ samples_per_trace exFile ∧ samples_per_trace exFile < 32768) ∧
    samples_per_trace exFile = 4 ∧ bits_per_sample exFile = 16 ∧
    num_channels exFile = 1 ∧ scans_per_meter_raw exFile = F32.finite 100 :=
  ⟨(C1_header_field_decoding exFile exFile 200 (by decide) (by decide) (by decide) (by decide)
      (by decide) (by decide) rfl rfl rfl rfl rfl rfl rfl rfl rfl rfl rfl (fun _ => rfl)).1,
    by decide, by decide, by decide, by decide⟩

/-- C2: the flat little-endian sample stream is reshaped into the matrix
with column-major fill — on every successful decode the matrix has
samples_per_trace rows and trace_count columns, and entry (s, t) is flat
sample t * samples_per_trace + s. -/
theorem C2_column_major_reshape (f : List Nat) (d : ℚ) (m : List (List Int))
    (md : HeaderInfo) (h : read_gssi_dzt_final f d = .ok m md) :
    m.length = (md.samples_per_trace).toNat ∧
    (∀ row ∈ m, row.length = md.trace_count) ∧
    ∀ s t : Nat, s < (md.samples_per_trace).toNat → t < md.trace_count →
      (m.getD s []).getD t 0 =
        (flat_samples f).getD (t * (md.samples_per_trace).toNat + s) 0 := by
  obtain ⟨-, -, -, -, -, hspt, -, -, htc, -, hm⟩ := decode_ok_inv f d m md h
  subst hm
  rw [hspt, htc]
  exact ⟨reshapeF_length _ _ _,
    fun row hr => reshapeF_row_length _ _ _ row hr,
    fun s t hs ht => reshapeF_entry _ _ _ s t hs ht⟩

/-- Witness for C2 at the concrete example file: entry (1, 2) of the
matrix is flat sample 2 * 4 + 1 = 9, whose value is 9. -/
theorem C2_witness :
    read_gssi_dzt_final exFile 200 = .ok exMatrix exMd ∧
    exMatrix.length = (exMd.samples_per_trace).toNat ∧
    (exMatrix.getD 1 []).getD 2 0 =
      (flat_samples exFile).getD (2 * (exMd.samples_per_trace).toNat + 1) 0 ∧
    (flat_samples exFile).getD (2 * (exMd.samples_per_trace).toNat + 1) 0 = 9 := by
  have hok : read_gssi_dzt_final exFile 200 = .ok exMatrix exMd := by decide
  have h := C2_column_major_reshape exFile 200 exMatrix exMd hok
  exact ⟨hok, h.1, h.2.2 1 2 (by decide) (by decide), by decide⟩

/-- C3: the derived trace count is floor(data-region size / bytes per
trace), and the trailing (data_size mod bytes_per_trace) bytes are
discarded — any file with the same length, the same header and the same
complete-trace bytes decodes to the identical matrix and metadata, no
matter what the trailing partial-trace bytes hold. -/
theorem C3_trace_count_floor (f g : List Nat) (d : ℚ) (m : List (List Int))
    (md : HeaderInfo) (h : read_gssi_dzt_final f d = .ok m md)
    (hlen : f.length = g.length)
    (hhead : ∀ i, i < 1024 → byte f i = byte g i)
    (hdata : ∀ p, p < trace_count f * bytes_per_trace f →
      byte f (1024 + p) = byte g (1024 + p)) :
    md.trace_count = data_size f / bytes_per_trace f ∧
    bytes_per_trace f = (samples_per_trace f).toNat * (bits_per_sample f / 8).toNat ∧
    data_size f = f.length - 1024 ∧
    read_gssi_dzt_final g d = .ok m md := by
  obtain ⟨-, -, -, -, -, -, -, -, htc, -, -⟩ := decode_ok_inv f d m md h
  have hwidth := decode_ok_width f d m md h
  have hspt : samples_per_trace f = samples_per_trace g := by
    unfold samples_per_trace
    rw [hhead 4 (by omega), hhead 5 (by omega)]
  have hbps : bits_per_sample f = bits_per_sample g := by
    unfold bits_per_sample
    rw [hhead 6 (by omega), hhead 7 (by omega)]
  have hspm : scans_per_meter_raw f = scans_per_meter_raw g := by
    unfold scans_per_meter_raw word40
    rw [hhead 40 (by omega), hhead 41 (by omega), hhead 42 (by omega), hhead 43 (by omega)]
  have hflat : flat_samples f = flat_samples g := by
    apply flat_samples_congr f g hlen hspt hbps
    intro p hp
    rw [hwidth] at hp
    exact hdata p hp
  refine ⟨by rw [htc]; rfl, rfl, rfl, ?_⟩
  rw [← decode_congr f g d hlen hspt hbps hspm hflat]
  exact h

/-- Witness for C3 at the concrete example file: the derived trace count
is 3 = floor(27 / 8), and changing the three trailing junk bytes of the
data region (file exFileJ) leaves the decoded output identical. -/
theorem C3_witness :
    read_gssi_dzt_final exFile 200 = .ok exMatrix exMd ∧
    exMd.trace_count = data_size exFile / bytes_per_trace exFile ∧
    data_size exFile = 27 ∧ bytes_per_trace exFile = 8 ∧
    read_gssi_dzt_final exFileJ 200 = .ok exMatrix exMd := by
  have hok : read_gssi_dzt_final exFile 200 = .ok exMatrix exMd := by decide
  have h := C3_trace_count_floor exFile exFileJ 200 exMatrix exMd hok (by decide)
    (fun i hi => byte_eq_of_take_eq exFile exFileJ i 1024 (by decide) hi)
    (fun p hp => byte_eq_of_take_eq exFile exFileJ (1024 + p) 1048 (by decide)
      (by
        have hb : trace_count exFile * bytes_per_trace exFile = 24 := by decide
        omega))
  exact ⟨hok, h.1, by decide, by decide, h.2.2.2⟩

/-- C4: header validation gates the data read — whenever the decoded
samples_per_trace is nonpositive or bits_per_sample is outside
{8, 16, 32}, the decode fails with the invalid-header exit no matter
what the data region holds (the conclusion is the same constant for
every such file, so no data byte can influence it). -/
theorem C4_validation_gate (f : List Nat) (d : ℚ)
    (hlen : 1024 ≤ f.length)
    (hbad : samples_per_trace f ≤ 0 ∨ bits_per_sample f ∉ ([8, 16, 32] : List Int)) :
    read_gssi_dzt_final f d = .error .invalidHeaderParameters := by
  unfold read_gssi_dzt_final
  rw [if_neg (by omega : ¬ f.length < 1024), if_pos hbad]

/-- Witness for C4: the all-zero header has samples_per_trace = 0 and is
rejected as invalid. -/
theorem C4_witness :
    samples_per_trace exFileB ≤ 0 ∧
    read_gssi_dzt_final exFileB 200 = .error .invalidHeaderParameters :=
  ⟨by decide, C4_validation_gate exFileB 200 (by decide) (Or.inl (by decide))⟩

/-- C5 counterexample: the claim promises a dedicated fail-closed
UnsupportedSampleWidth error for bits_per_sample = 8 and an element
width of bits_per_sample / 8 bytes.  In the code the element width used
for an 8-bit header is 4 bytes, not 8 / 8 = 1, the data read is
attempted, and the failure that results is the generic exception exit —
the very same value produced by an unrelated ZeroDivisionError file —
so no dedicated width error exists. -/
theorem C5_counterexample :
    bits_per_sample exFile8 = 8 ∧
    elem_width exFile8 = 4 ∧
    (bits_per_sample exFile8 / 8).toNat = 1 ∧
    read_gssi_dzt_final exFile8 200 = .error .criticalError ∧
    read_gssi_dzt_final exFileZ 0 = .error .criticalError :=
  ⟨by decide, by decide, by decide, by decide, by decide⟩

/-- C5 as amended: for bits_per_sample = 16 the samples are read as
2-byte little-endian signed integers and otherwise as 4-byte ones, so
an 8-bit header is read at width 4; the element count then always falls
short of samples_per_trace * trace_count, and the decode invariably
fails (empty recording, or the generic exception exit after the
attempted read) — no matrix mis-decoded at the wrong width is ever
returned, but the failure is not a dedicated UnsupportedSampleWidth
error. -/
theorem C5_amended_width (f : List Nat) (d : ℚ)
    (hlen : 1024 ≤ f.length) (hspt : 0 < samples_per_trace f)
    (h8 : bits_per_sample f = 8) :
    elem_width f = 4 ∧
    (read_gssi_dzt_final f d = .error .emptyRecording ∨
      read_gssi_dzt_final f d = .error .criticalError) ∧
    ∀ m md, read_gssi_dzt_final f d ≠ .ok m md := by
  have hw : elem_width f = 4 := by
    unfold elem_width
    rw [h8]
    norm_num
  have hdisj : read_gssi_dzt_final f d = .error .emptyRecording ∨
      read_gssi_dzt_final f d = .error .criticalError := by
    by_cases htc : trace_count f = 0
    · refine Or.inl ?_
      unfold read_gssi_dzt_final
      rw [if_neg (by omega : ¬ f.length < 1024)]
      rw [if_neg (show ¬ (samples_per_trace f ≤ 0 ∨
          bits_per_sample f ∉ ([8, 16, 32] : List Int)) by
        push_neg
        exact ⟨by omega, by rw [h8]; simp⟩)]
      rw [if_pos htc]
    · exact Or.inr (bits8_error f d hlen hspt h8 htc)
  refine ⟨hw, hdisj, ?_⟩
  intro m md hok
  rcases hdisj with he | he <;> rw [he] at hok <;> exact absurd hok (by simp)

/-- Witness for C5 at the concrete 8-bit example file. -/
theorem C5_witness :
    (1024 ≤ exFile8.length ∧ 0 < samples_per_trace exFile8 ∧
      bits_per_sample exFile8 = 8) ∧
    elem_width exFile8 = 4 ∧
    (read_gssi_dzt_final exFile8 200 = .error .emptyRecording ∨
      read_gssi_dzt_final exFile8 200 = .error .criticalError) :=
  ⟨⟨by decide, by decide, by decide⟩,
    (C5_amended_width exFile8 200 (by decide) (by decide) (by decide)).1,
    (C5_amended_width exFile8 200 (by decide) (by decide) (by decide)).2.1⟩

/-- C6: fallback substitution for horizontal density — on every
successful decode the returned scans_per_meter is the caller default
exactly when the decoded header float compared <= 0 (the condition of
the logged fallback warning), and the decoded value itself otherwise. -/
theorem C6_fallback (f : List Nat) (d : ℚ) (m : List (List Int)) (md : HeaderInfo)
    (h : read_gssi_dzt_final f d = .ok m md) :
    md.scans_per_meter = spm_final f d ∧
    (fallback_flag f = true → md.scans_per_meter = F32.finite d) ∧
    (fallback_flag f = false → md.scans_per_meter = scans_per_meter_raw f) ∧
    (∀ q : ℚ, scans_per_meter_raw f = F32.finite q → q ≤ 0 →
      md.scans_per_meter = F32.finite d) ∧
    (∀ q : ℚ, scans_per_meter_raw f = F32.finite q → 0 < q →
      md.scans_per_meter = F32.finite q) := by
  obtain ⟨-, -, -, -, -, -, -, hspm, -, -, -⟩ := decode_ok_inv f d m md h
  refine ⟨hspm, ?_, ?_, ?_, ?_⟩
  · intro hf
    rw [hspm]
    unfold spm_final
    unfold fallback_flag at hf
    rw [hf]
    simp
  · intro hf
    rw [hspm]
    unfold spm_final
    unfold fallback_flag at hf
    rw [hf]
    simp
  · intro q hq hle
    rw [hspm]
    unfold spm_final
    rw [hq]
    simp [F32.le0, hle]
  · intro q hq hpos
    rw [hspm]
    unfold spm_final
    rw [hq]
    have : ¬ q ≤ 0 := not_le.mpr hpos
    simp [F32.le0, this]

/-- Witness for C6: a file whose header float is 0.0 decodes with the
caller default 200 in its metadata and the fallback flag raised. -/
theorem C6_witness :
    read_gssi_dzt_final exFileF 200 =
      .ok [[7]] ⟨1, 16, F32.finite 200, 1, F32.finite (mkRat 1 200)⟩ ∧
    fallback_flag exFileF = true ∧
    scans_per_meter_raw exFileF = F32.finite 0 ∧
    (⟨1, 16, F32.finite 200, 1, F32.finite (mkRat 1 200)⟩ : HeaderInfo).scans_per_meter =
      F32.finite 200 := by
  have hok : read_gssi_dzt_final exFileF 200 =
      .ok [[7]] ⟨1, 16, F32.finite 200, 1, F32.finite (mkRat 1 200)⟩ := by decide
  exact ⟨hok, by decide, by decide,
    (C6_fallback exFileF 200 _ _ hok).2.1 (by decide)⟩

/-- C7: empty-data guard — a structurally valid header whose data region
is smaller than one complete trace fails with the empty-recording exit,
never a zero-column success. -/
theorem C7_empty_guard (f : List Nat) (d : ℚ)
    (hlen : 1024 ≤ f.length)
    (hspt : 0 < samples_per_trace f)
    (hbits : bits_per_sample f ∈ ([8, 16, 32] : List Int))
    (hsmall : data_size f < bytes_per_trace f) :
    read_gssi_dzt_final f d = .error .emptyRecording ∧
    ∀ m md, read_gssi_dzt_final f d ≠ .ok m md := by
  have htc : trace_count f = 0 := Nat.div_eq_of_lt hsmall
  have herr : read_gssi_dzt_final f d = .error .emptyRecording := by
    unfold read_gssi_dzt_final
    rw [if_neg (by omega : ¬ f.length < 1024)]
    rw [if_neg (show ¬ (samples_per_trace f ≤ 0 ∨
        bits_per_sample f ∉ ([8, 16, 32] : List Int)) by
      push_neg
      exact ⟨by omega, hbits⟩)]
    rw [if_pos htc]
  refine ⟨herr, ?_⟩
  intro m md hok
  rw [herr] at hok
  exact absurd hok (by simp)

/-- Witness for C7: a valid header followed by no data at all is an
empty recording. -/
theorem C7_witness :
    data_size exFileE < bytes_per_trace exFileE ∧
    read_gssi_dzt_final exFileE 200 = .error .emptyRecording :=
  ⟨by decide,
    (C7_empty_guard exFileE 200 (by decide) (by decide) (by decide) (by decide)).1⟩

/-- C8: length derivation — on every successful decode the metadata
total_length_m is exactly trace_count / scans_per_meter, with
scans_per_meter taken after the fallback and trace_count the finalized
value. -/
theorem C8_length_derivation (f : List Nat) (d : ℚ) (m : List (List Int))
    (md : HeaderInfo) (h : read_gssi_dzt_final f d = .ok m md) :
    md.trace_count = trace_count f ∧
    fdivNat md.trace_count md.scans_per_meter = some md.total_length_m ∧
    ∀ q : ℚ, md.scans_per_meter = F32.finite q →
      q ≠ 0 ∧ md.total_length_m = F32.finite ((md.trace_count : ℚ) / q) := by
  obtain ⟨-, -, -, -, -, -, -, hspm, htc, hdiv, -⟩ := decode_ok_inv f d m md h
  refine ⟨htc, by rw [htc, hspm]; exact hdiv, ?_⟩
  intro q hq
  have hsp : spm_final f d = F32.finite q := hspm.symm.trans hq
  rw [hsp] at hdiv
  have hq0 : q ≠ 0 := by
    intro h0
    rw [h0] at hdiv
    simp [fdivNat] at hdiv
  have hfd := fdivNat_finite (trace_count f) q hq0
  rw [hfd] at hdiv
  injection hdiv with hdiv1
  refine ⟨hq0, ?_⟩
  rw [htc, ← hdiv1]

/-- Witness for C8 at the concrete example file: 3 traces at 100 scans
per meter give a length of 3 / 100 meters. -/
theorem C8_witness :
    read_gssi_dzt_final exFile 200 = .ok exMatrix exMd ∧
    exMd.scans_per_meter = F32.finite 100 ∧
    exMd.total_length_m = F32.finite ((exMd.trace_count : ℚ) / 100) := by
  have hok : read_gssi_dzt_final exFile 200 = .ok exMatrix exMd := by decide
  exact ⟨hok, by decide,
    ((C8_length_derivation exFile 200 exMatrix exMd hok).2.2 100 (by decide)).2⟩

/-- C9 counterexample: the claimed invariant scans_per_meter > 0 for a
positive default fails — a header whose float field is the NaN word
7FC00000 decodes successfully, the NaN is kept (NaN <= 0 is false, so no
fallback fires), and NaN > 0 is also false in the returned metadata. -/
theorem C9_counterexample :
    read_gssi_dzt_final exFileN 200 = .ok [[5]] ⟨1, 16, F32.nan, 1, F32.nan⟩ ∧
    (0 : ℚ) < 200 ∧
    F32.gt0 (HeaderInfo.scans_per_meter ⟨1, 16, F32.nan, 1, F32.nan⟩) = false :=
  ⟨by decide, by decide, by decide⟩

/-- C9 as amended: every successful decode returns metadata with
samples_per_trace > 0, bits_per_sample in {8, 16, 32}, at least one
trace, a matrix of exactly samples_per_trace rows and trace_count
columns, and — provided the supplied default is positive and the kept
float is not NaN — a positive scans_per_meter; a NaN header float is
kept unchanged and propagates to the metadata. -/
theorem C9_amended_invariant (f : List Nat) (d : ℚ) (m : List (List Int))
    (md : HeaderInfo) (h : read_gssi_dzt_final f d = .ok m md) :
    0 < md.samples_per_trace ∧
    (md.bits_per_sample = 8 ∨ md.bits_per_sample = 16 ∨ md.bits_per_sample = 32) ∧
    (0 < d → md.scans_per_meter ≠ F32.nan → md.scans_per_meter.gt0 = true) ∧
    1 ≤ md.trace_count ∧
    m.length = (md.samples_per_trace).toNat ∧
    (∀ row ∈ m, row.length = md.trace_count) := by
  obtain ⟨hlen, hspt, hbits, htc, hflat, hsptmd, hbpsmd, hspm, htcmd, hdiv, hm⟩ :=
    decode_ok_inv f d m md h
  refine ⟨by rw [hsptmd]; exact hspt, by rw [hbpsmd]; exact hbits, ?_,
    by rw [htcmd]; omega, ?_, ?_⟩
  · intro hd hnan
    rw [hspm] at hnan ⊢
    unfold spm_final at hnan ⊢
    rcases hraw : scans_per_meter_raw f with q | _ | _ | _
    · rw [hraw] at hnan
      by_cases hq : q ≤ 0
      · simp [F32.le0, hq, F32.gt0, hd]
      · have hqpos : 0 < q := lt_of_not_le hq
        simp [F32.le0, hq, F32.gt0, hqpos]
    · simp [F32.le0, F32.gt0]
    · simp [F32.le0, F32.gt0, hd]
    · rw [hraw] at hnan
      simp [F32.le0] at hnan
  · rw [hm, hsptmd]
    exact reshapeF_length _ _ _
  · intro row hr
    rw [hm] at hr
    rw [htcmd]
    exact reshapeF_row_length _ _ _ row hr

/-- Witness for C9 at the concrete example file: positive default,
finite positive scans_per_meter, three traces, 4 x 3 matrix. -/
theorem C9_witness :
    read_gssi_dzt_final exFile 200 = .ok exMatrix exMd ∧
    (0 : ℚ) < 200 ∧ exMd.scans_per_meter ≠ F32.nan ∧
    (exMd.scans_per_meter.gt0 = true ∧ 1 ≤ exMd.trace_count ∧
      exMatrix.length = (exMd.samples_per_trace).toNat) := by
  have hok : read_gssi_dzt_final exFile 200 = .ok exMatrix exMd := by decide
  have h := C9_amended_invariant exFile 200 exMatrix exMd hok
  exact ⟨hok, by decide, by decide,
    h.2.2.1 (by decide) (by decide), h.2.2.2.1, h.2.2.2.2.1⟩

/-- C10: every failure path returns the identical caller-visible value —
the collapse of any two failing decodes, whatever their internal exit
(truncated header, invalid parameters, empty recording, or the generic
exception branch), is the single value none, so no partial matrix or
metadata ever escapes and failures are indistinguishable from the return
value alone. -/
theorem C10_uniform_failure (f1 f2 : List Nat) (d1 d2 : ℚ) (e1 e2 : DecodeErr)
    (h1 : read_gssi_dzt_final f1 d1 = .error e1)
    (h2 : read_gssi_dzt_final f2 d2 = .error e2) :
    read_gssi_dzt_final_ret f1 d1 = none ∧
    read_gssi_dzt_final_ret f2 d2 = none ∧
    read_gssi_dzt_final_ret f1 d1 = read_gssi_dzt_final_ret f2 d2 := by
  unfold read_gssi_dzt_final_ret
  rw [h1, h2]
  exact ⟨rfl, rfl, rfl⟩

/-- Witness for C10: a truncated file and an invalid-header file fail
through different exits yet return the same value none. -/
theorem C10_witness :
    read_gssi_dzt_final ([] : List Nat) 200 = .error .truncatedHeader ∧
    read_gssi_dzt_final exFileB 200 = .error .invalidHeaderParameters ∧
    read_gssi_dzt_final_ret ([] : List Nat) 200 = none ∧
    read_gssi_dzt_final_ret ([] : List Nat) 200 = read_gssi_dzt_final_ret exFileB 200 := by
  have h1 : read_gssi_dzt_final ([] : List Nat) 200 = .error .truncatedHeader := by decide
  have h2 : read_gssi_dzt_final exFileB 200 = .error .invalidHeaderParameters := by decide
  have h := C10_uniform_failure [] exFileB 200 200 .truncatedHeader .invalidHeaderParameters h1 h2
  exact ⟨h1, h2, h.1, h.2.2⟩
